import Mathlib

/-!
Verification of the septapus event-distribution core (the bot/event-routing
file) against its specification.

The embedding is shallow.  Go channels become explicit queues: a channel is
identified by a natural-number id, and its state is the sequence of events
that have been enqueued into it together with the number of times close()
has been executed on it (Go panics on the second close, so tracking the
count lets double-close show up as a value 2).  Goroutine forwarding loops
over a channel (the filters and the policy wrapper) become structurally
recursive functions over the list of events read from the parent channel.
Maps become association lists; a Go nil map is an explicit Option.none
where the source distinguishes nil from empty.  The Event record carries
the server name (the only field of the pointed-to Server that the filters
and the policy read, via event.Server.Name), the room and the raw line.
-/

namespace Septapus

abbrev ServerName := String
abbrev RoomName := String
abbrev EventName := String
abbrev RawLine := String

/-- Event from the source: the record handed to Broadcast, holding the
originating server (represented by its name), the room and the raw line. -/
structure Event where
  server : ServerName
  room : RoomName
  line : RawLine
deriving DecidableEq, Repr

def ALL_SERVERS : ServerName := "*"
def ALL_ROOMS : RoomName := "*"

/-- PluginSettings from the source: four rule maps.  A Go map-to-bool is an
association structure where membership means the key maps to true; the two
room maps are nested, mirroring map[ServerName]map[RoomName]bool. -/
structure PluginSettings where
  bannedServers : List ServerName
  bannedRooms : List (ServerName × List RoomName)
  forcedServers : List ServerName
  forcedRooms : List (ServerName × List RoomName)
deriving DecidableEq, Repr

def NewPluginSettings : PluginSettings := ⟨[], [], [], []⟩

def PluginSettings.IsBannedServer (s : PluginSettings) (server : ServerName) : Bool :=
  s.bannedServers.contains ALL_SERVERS || s.bannedServers.contains server

def PluginSettings.isBannedRoom (s : PluginSettings) (server : ServerName)
    (room : RoomName) : Bool :=
  match s.bannedRooms.lookup server with
  | none => false
  | some rooms => rooms.contains room

def PluginSettings.IsBannedRoom (s : PluginSettings) (server : ServerName)
    (room : RoomName) : Bool :=
  s.isBannedRoom ALL_SERVERS ALL_ROOMS || s.isBannedRoom ALL_SERVERS room ||
    s.isBannedRoom server ALL_ROOMS || s.isBannedRoom server room

def PluginSettings.IsForcedServer (s : PluginSettings) (server : ServerName) : Bool :=
  s.forcedServers.contains ALL_SERVERS || s.forcedServers.contains server

def PluginSettings.isForcedRoom (s : PluginSettings) (server : ServerName)
    (room : RoomName) : Bool :=
  match s.forcedRooms.lookup server with
  | none => false
  | some rooms => rooms.contains room

def PluginSettings.IsForcedRoom (s : PluginSettings) (server : ServerName)
    (room : RoomName) : Bool :=
  s.isForcedRoom ALL_SERVERS ALL_ROOMS || s.isForcedRoom ALL_SERVERS room ||
    s.isForcedRoom server ALL_ROOMS || s.isForcedRoom server room

/-- The delivery test inlined in the forwarding goroutine of
PluginSettings.GetEventHandler. -/
def PluginSettings.allows (s : PluginSettings) (server : ServerName)
    (room : RoomName) : Bool :=
  (s.IsForcedServer server || s.IsForcedRoom server room) ||
    !(s.IsBannedServer server || s.IsBannedRoom server room)

/-- Body of the forwarding goroutine of PluginSettings.GetEventHandler: it
reads each event of the raw subscription in order and re-publishes it when
the policy allows the pair (server, room). -/
def PluginSettings.GetEventHandler (s : PluginSettings) : List Event → List Event
  | [] => []
  | e :: rest =>
    if s.allows e.server e.room then e :: s.GetEventHandler rest
    else s.GetEventHandler rest

/-- Setting map[server][room] = true in a nested Go map. -/
def addRoomEntry (m : List (ServerName × List RoomName)) (server : ServerName)
    (room : RoomName) : List (ServerName × List RoomName) :=
  match m with
  | [] => [(server, [room])]
  | (k, v) :: rest =>
    if k == server then (k, room :: v) :: rest
    else (k, v) :: addRoomEntry rest server room

def PluginSettings.AddBannedServer (s : PluginSettings) (server : ServerName) :
    PluginSettings :=
  { s with bannedServers := server :: s.bannedServers }

def PluginSettings.AddBannedRoom (s : PluginSettings) (server : ServerName)
    (room : RoomName) : PluginSettings :=
  { s with bannedRooms := addRoomEntry s.bannedRooms server room }

def PluginSettings.AddForcedServer (s : PluginSettings) (server : ServerName) :
    PluginSettings :=
  { s with forcedServers := server :: s.forcedServers }

def PluginSettings.AddForcedRoom (s : PluginSettings) (server : ServerName)
    (room : RoomName) : PluginSettings :=
  { s with forcedRooms := addRoomEntry s.forcedRooms server room }

/-- Refinement reference, written from the specification text and not from
the source: delivery is allowed iff forced(network) OR forced(network,room)
OR NOT (banned(network) OR banned(network,room)), each room-axis check
testing the four wildcard combinations exact, network-with-any-room,
any-network-with-room, any-network-any-room. -/
def deliverSpec (s : PluginSettings) (n : ServerName) (r : RoomName) : Bool :=
  (s.forcedServers.contains n || s.forcedServers.contains ALL_SERVERS) ||
  (s.isForcedRoom n r || s.isForcedRoom n ALL_ROOMS ||
    s.isForcedRoom ALL_SERVERS r || s.isForcedRoom ALL_SERVERS ALL_ROOMS) ||
  !((s.bannedServers.contains n || s.bannedServers.contains ALL_SERVERS) ||
    (s.isBannedRoom n r || s.isBannedRoom n ALL_ROOMS ||
      s.isBannedRoom ALL_SERVERS r || s.isBannedRoom ALL_SERVERS ALL_ROOMS))

/-- The policy configuration of the precedence example: ban-all-rooms(N1)
together with force-room(N1,R1). -/
def precedenceSettings : PluginSettings :=
  (NewPluginSettings.AddBannedRoom "N1" ALL_ROOMS).AddForcedRoom "N1" "R1"

/-- FilterRoom from the source: the forwarding goroutine keeps exactly the
events whose server and room match. -/
def FilterRoom : List Event → ServerName → RoomName → List Event
  | [], _, _ => []
  | e :: rest, server, room =>
    if e.server == server && e.room == room then e :: FilterRoom rest server room
    else FilterRoom rest server room

/-- State of one Go channel of events: the sequence of events enqueued into
it (oldest first) and the number of times close() has been executed on it.
Go panics on the second close, so a count of 2 marks a double-close. -/
structure ChanSt where
  buf : List Event
  closedCount : Nat
deriving DecidableEq, Repr

/-- A world of channels, keyed by channel id. -/
abbrev ChanWorld := List (Nat × ChanSt)

/-- Mutation of the channel object identified by target. -/
def updateChan (cs : ChanWorld) (target : Nat) (g : ChanSt → ChanSt) : ChanWorld :=
  cs.map (fun p => if p.1 == target then (p.1, g p.2) else p)

/-- Sending an event on a channel: append it to that channel's queue. -/
def enqueue (cs : ChanWorld) (target : Nat) (e : Event) : ChanWorld :=
  updateChan cs target (fun c => ⟨c.buf ++ [e], c.closedCount⟩)

/-- Executing close() on a channel. -/
def closeChan (cs : ChanWorld) (target : Nat) : ChanWorld :=
  updateChan cs target (fun c => ⟨c.buf, c.closedCount + 1⟩)

def getBuf (cs : ChanWorld) (id : Nat) : List Event :=
  match cs.lookup id with
  | some c => c.buf
  | none => []

def getClosed (cs : ChanWorld) (id : Nat) : Nat :=
  match cs.lookup id with
  | some c => c.closedCount
  | none => 0

/-- The send loop of EventDispatcher.Broadcast: enqueue the event into every
channel of the subscriber set. -/
def broadcastTo (cs : ChanWorld) (d : List Nat) (e : Event) : ChanWorld :=
  d.foldl (fun cs0 id => enqueue cs0 id e) cs

/-- Executing close() on every channel of a list (a dispatcher's set). -/
def closeList (cs : ChanWorld) (d : List Nat) : ChanWorld :=
  d.foldl (fun cs0 id => closeChan cs0 id) cs

/-- Executing EventDispatcher.Close on every dispatcher of the events map. -/
def closeAllDisp (cs : ChanWorld) (m : List (EventName × List Nat)) : ChanWorld :=
  m.foldl (fun cs0 p => closeList cs0 p.2) cs

/-- One EventDispatcher together with the channels it can reach: the
subscriber set (the keys of the Go channels map), the channel world, and
the next fresh channel id. -/
structure DispSt where
  channels : List Nat
  chans : ChanWorld
  next : Nat
deriving DecidableEq, Repr

def DispSt.empty : DispSt := ⟨[], [], 0⟩

/-- EventDispatcher.GetEventHandler: make a fresh channel, add it to the
subscriber set, return it. -/
def DispSt.getEventHandler (d : DispSt) : Nat × DispSt :=
  (d.next, ⟨d.next :: d.channels, (d.next, ⟨[], 0⟩) :: d.chans, d.next + 1⟩)

/-- EventDispatcher.RemoveEventHandler: close the channel (unconditionally,
as the source does) and delete it from the subscriber set. -/
def DispSt.removeEventHandler (d : DispSt) (id : Nat) : DispSt :=
  ⟨d.channels.filter (fun c => !(c == id)), closeChan d.chans id, d.next⟩

/-- EventDispatcher.Broadcast: send the event to every channel currently in
the subscriber set. -/
def DispSt.broadcast (d : DispSt) (e : Event) : DispSt :=
  ⟨d.channels, broadcastTo d.chans d.channels e, d.next⟩

/-- The public operations of one EventDispatcher. -/
inductive DOp where
  | subscribe
  | unsubscribe (id : Nat)
  | broadcast (e : Event)
deriving DecidableEq, Repr

def DispSt.step (d : DispSt) : DOp → DispSt
  | DOp.subscribe => (d.getEventHandler).2
  | DOp.unsubscribe id => d.removeEventHandler id
  | DOp.broadcast e => d.broadcast e

def DispSt.run (d : DispSt) (ops : List DOp) : DispSt :=
  ops.foldl DispSt.step d

/-- Server record from the source, reduced to the parts the registry logic
reads: the name and the rooms to auto-join.  The live connection handle is
modelled by the world outside the record (the connects log and the wired
callback list of BotSt). -/
structure Srv where
  name : ServerName
  rooms : List RoomName
deriving DecidableEq, Repr

/-- Assoc-map update used for bot.events, mirroring map assignment. -/
def setDisp (m : List (EventName × List Nat)) (k : EventName) (d : List Nat) :
    List (EventName × List Nat) :=
  match m with
  | [] => [(k, d)]
  | (k0, v) :: rest =>
    if k0 == k then (k0, d) :: rest else (k0, v) :: setDisp rest k d

/-- The Bot of the source.  servers mirrors bot.servers; events mirrors
bot.events, with none standing for the Go nil map; wired is the list of
currently registered protocol callbacks, one (server, event-kind) pair per
HandleFunc registration held by bot.removers; chans and next are the shared
channel world; connects logs every call of Conn.Connect(), so that a second
protocol connection attempt is observable. -/
structure BotSt where
  servers : List (ServerName × Srv)
  events : Option (List (EventName × List Nat))
  wired : List (ServerName × EventName)
  chans : ChanWorld
  next : Nat
  connects : List ServerName
deriving DecidableEq, Repr

def BotSt.empty : BotSt := ⟨[], none, [], [], 0, []⟩

/-- Bot.GetEventHandler: create the dispatcher for the event name if it is
missing, in that case wiring a broadcast callback onto every already-added
server (bot.makeEvents), then create a fresh subscription channel in that
dispatcher. -/
def BotSt.getEventHandler (b : BotSt) (k : EventName) : Nat × BotSt :=
  let m := b.events.getD []
  match m.lookup k with
  | some d =>
    (b.next, { b with
      events := some (setDisp m k (b.next :: d))
      chans := (b.next, ⟨[], 0⟩) :: b.chans
      next := b.next + 1 })
  | none =>
    (b.next, { b with
      events := some (setDisp m k [b.next])
      wired := b.wired ++ b.servers.map (fun p => (p.1, k))
      chans := (b.next, ⟨[], 0⟩) :: b.chans
      next := b.next + 1 })

/-- Bot.RemoveEventHandler: call EventDispatcher.RemoveEventHandler on every
dispatcher in bot.events; each such call unconditionally executes close()
on the channel and deletes it from that dispatcher's set. -/
def BotSt.removeEventHandler (b : BotSt) (id : Nat) : BotSt :=
  match b.events with
  | none => b
  | some m =>
    { b with
      events := some (m.map (fun p => (p.1, p.2.filter (fun c => !(c == id)))))
      chans := m.foldl (fun cs _ => closeChan cs id) b.chans }

/-- Bot.BroadcastEvent: if the events map is nil or has no dispatcher for
the name, do nothing; otherwise broadcast into that dispatcher. -/
def BotSt.BroadcastEvent (b : BotSt) (name : EventName) (ev : Event) : BotSt :=
  match b.events with
  | none => b
  | some m =>
    match m.lookup name with
    | none => b
    | some d => { b with chans := broadcastTo b.chans d ev }

/-- Bot.AddServer.  If the name is already registered, return the existing
record unchanged with a nil error.  Otherwise the source stores the record
and runs the makeEvents loop over bot.events BEFORE server.Conn is
assigned: each iteration invokes HandleFunc on the still-nil connection, a
nil-pointer panic in the client library, so when any dispatcher exists the
call never returns and registers no callback — modelled as none.  Only
with an empty (or nil) events map does the loop run zero times and the
call proceed to create the connection and attempt Connect(), whose outcome
connectErr (an input of the model) is returned to the caller. -/
def BotSt.AddServer (b : BotSt) (s : Srv) (connectErr : Option String) :
    Option (Srv × BotSt × Option String) :=
  match b.servers.lookup s.name with
  | some existing => some (existing, b, none)
  | none =>
    match b.events.getD [] with
    | [] => some (s, { b with
        servers := b.servers ++ [(s.name, s)]
        connects := b.connects ++ [s.name] }, connectErr)
    | _ :: _ => none

/-- Body of one wired protocol callback firing for kind k: broadcast the
event into the dispatcher registered for k, if any.  The Go closure
captured the dispatcher reference at wiring time; dispatchers are created
at most once per event name and never replaced, so looking the dispatcher
up by name at arrival time is equivalent. -/
def deliverRaw (k : EventName) (ev : Event) (b0 : BotSt) : BotSt :=
  match b0.events with
  | none => b0
  | some m =>
    match m.lookup k with
    | none => b0
    | some d => { b0 with chans := broadcastTo b0.chans d ev }

/-- Arrival of one raw protocol line of kind k on the connection of server
srv: every registered callback for that (server, kind) pair fires. -/
def BotSt.arrive (b : BotSt) (srv : ServerName) (k : EventName)
    (room : RoomName) (l : RawLine) : BotSt :=
  (b.wired.filter (fun p => p.1 == srv && p.2 == k)).foldl
    (fun b0 _ => deliverRaw k ⟨srv, room, l⟩ b0) b

/-- The externally visible steps Bot.Disconnect performs, in order. -/
inductive DAction where
  | unregisterCallbacks
  | closeDispatchers
  | quit (s : ServerName)
  | waitGrace
deriving DecidableEq, Repr

/-- Bot.Disconnect: unregister every protocol callback (remover.Remove()),
execute close() on every channel of every dispatcher's set (the sets
themselves are left in place, as the source does), quit every server
connection, then wait the fixed grace interval.  The second component is
the log of those steps in execution order. -/
def BotSt.Disconnect (b : BotSt) : BotSt × List DAction :=
  let m := b.events.getD []
  ({ b with
     wired := []
     chans := closeAllDisp b.chans m },
   [DAction.unregisterCallbacks, DAction.closeDispatchers]
     ++ b.servers.map (fun p => DAction.quit p.1) ++ [DAction.waitGrace])

/-- Sample event used by concrete runs. -/
def evX : Event := ⟨"N1", "R1", "x"⟩

def srvN1 : Srv := ⟨"N1", ["R1"]⟩

def srvN2 : Srv := ⟨"N2", []⟩

/-- A dispatcher holding one subscription, channel 0. -/
def dispEx : DispSt := ((DispSt.empty).getEventHandler).2

/-- A bot with one dispatcher (for JOIN) holding channel 0. -/
def botOneDisp : BotSt := ((BotSt.empty).getEventHandler "JOIN").2

/-- A bot with two dispatchers: JOIN holding channel 0 and PART holding
channel 1. -/
def botTwoDisp : BotSt := (botOneDisp.getEventHandler "PART").2

/-- A bot with one registered server N1 and no dispatchers: the state a
successful AddServer of N1 on the empty bot leaves behind. -/
def botOneSrv : BotSt := ⟨[("N1", srvN1)], none, [], [], 0, ["N1"]⟩

theorem lookup_cons_pair {α β} [BEq α] (a k : α) (v : β) (l : List (α × β)) :
    List.lookup a ((k, v) :: l) = if a == k then some v else List.lookup a l := by
  simp only [List.lookup]
  cases a == k <;> simp

theorem mem_of_lookup_eq_some {α β} [BEq α] [LawfulBEq α] {a : α} {b : β} :
    ∀ {l : List (α × β)}, List.lookup a l = some b → (a, b) ∈ l := by
  intro l
  induction l with
  | nil => intro h; simp [List.lookup] at h
  | cons p rest ih =>
    intro h
    rw [show p = (p.1, p.2) from rfl, lookup_cons_pair] at h
    by_cases hk : a == p.1
    · rw [if_pos hk] at h
      have ha : a = p.1 := eq_of_beq hk
      cases h
      simp [ha]
    · rw [if_neg hk] at h
      exact List.mem_cons_of_mem _ (ih h)

theorem lookup_append_of_none {α β} [BEq α] {a : α} {l1 l2 : List (α × β)}
    (h : List.lookup a l1 = none) : List.lookup a (l1 ++ l2) = List.lookup a l2 := by
  induction l1 with
  | nil => simp
  | cons p rest ih =>
    rw [show p = (p.1, p.2) from rfl, lookup_cons_pair] at h
    rw [List.cons_append, show ((p.1, p.2) :: (rest ++ l2)) = ((p.1, p.2) :: (rest ++ l2)) from rfl,
      lookup_cons_pair]
    by_cases hk : a == p.1
    · rw [if_pos hk] at h; exact absurd h (by simp)
    · rw [if_neg hk] at h
      rw [if_neg hk]
      exact ih h

theorem updateChan_cons (p : Nat × ChanSt) (rest : ChanWorld) (t : Nat) (g : ChanSt → ChanSt) :
    updateChan (p :: rest) t g
      = (if p.1 == t then (p.1, g p.2) else p) :: updateChan rest t g := rfl

theorem lookup_updateChan (cs : ChanWorld) (t : Nat) (g : ChanSt → ChanSt) (id : Nat) :
    List.lookup id (updateChan cs t g)
      = if id = t then Option.map g (List.lookup id cs) else List.lookup id cs := by
  induction cs with
  | nil => simp [updateChan]
  | cons p rest ih =>
    rcases p with ⟨k, v⟩
    rw [updateChan_cons]
    by_cases hid : id = k
    · subst hid
      by_cases hkt : id = t
      · subst hkt
        simp [lookup_cons_pair, ih]
      · simp [lookup_cons_pair, hkt, ih]
    · by_cases hkt : k = t
      · subst hkt
        simp [lookup_cons_pair, hid, ih]
      · simp [lookup_cons_pair, hid, hkt, ih]

theorem getBuf_def (cs : ChanWorld) (id : Nat) :
    getBuf cs id = ((List.lookup id cs).map ChanSt.buf).getD [] := by
  simp only [getBuf]
  rcases List.lookup id cs with _ | c <;> simp

theorem getClosed_def (cs : ChanWorld) (id : Nat) :
    getClosed cs id = ((List.lookup id cs).map ChanSt.closedCount).getD 0 := by
  simp only [getClosed]
  rcases List.lookup id cs with _ | c <;> simp

theorem isSome_lookup_updateChan (cs : ChanWorld) (t : Nat) (g : ChanSt → ChanSt) (id : Nat) :
    (List.lookup id (updateChan cs t g)).isSome = (List.lookup id cs).isSome := by
  rw [lookup_updateChan]
  split <;> simp

theorem getBuf_enqueue_ne (cs : ChanWorld) (t id : Nat) (e : Event) (h : ¬ id = t) :
    getBuf (enqueue cs t e) id = getBuf cs id := by
  simp [getBuf_def, enqueue, lookup_updateChan, h]

theorem getBuf_enqueue_self (cs : ChanWorld) (t : Nat) (e : Event)
    (h : (List.lookup t cs).isSome = true) :
    getBuf (enqueue cs t e) t = getBuf cs t ++ [e] := by
  obtain ⟨c, hc⟩ := Option.isSome_iff_exists.mp h
  simp [getBuf_def, enqueue, lookup_updateChan, hc]

theorem getClosed_enqueue (cs : ChanWorld) (t id : Nat) (e : Event) :
    getClosed (enqueue cs t e) id = getClosed cs id := by
  simp only [getClosed_def, enqueue, lookup_updateChan]
  by_cases h : id = t
  · subst h
    rw [if_pos rfl]
    rcases List.lookup id cs with _ | c <;> simp
  · rw [if_neg h]

theorem getBuf_closeChan (cs : ChanWorld) (t id : Nat) :
    getBuf (closeChan cs t) id = getBuf cs id := by
  simp only [getBuf_def, closeChan, lookup_updateChan]
  by_cases h : id = t
  · subst h
    rw [if_pos rfl]
    rcases List.lookup id cs with _ | c <;> simp
  · rw [if_neg h]

theorem getClosed_closeChan_self (cs : ChanWorld) (t : Nat)
    (h : (List.lookup t cs).isSome = true) :
    getClosed (closeChan cs t) t = getClosed cs t + 1 := by
  obtain ⟨c, hc⟩ := Option.isSome_iff_exists.mp h
  simp [getClosed_def, closeChan, lookup_updateChan, hc]

theorem getClosed_closeChan_mono (cs : ChanWorld) (t id : Nat) :
    getClosed cs id ≤ getClosed (closeChan cs t) id := by
  simp only [getClosed_def, closeChan, lookup_updateChan]
  by_cases h : id = t
  · subst h
    rw [if_pos rfl]
    rcases List.lookup id cs with _ | c <;> simp
  · rw [if_neg h]

theorem isSome_lookup_enqueue (cs : ChanWorld) (t id : Nat) (e : Event) :
    (List.lookup id (enqueue cs t e)).isSome = (List.lookup id cs).isSome :=
  isSome_lookup_updateChan cs t _ id

theorem isSome_lookup_closeChan (cs : ChanWorld) (t id : Nat) :
    (List.lookup id (closeChan cs t)).isSome = (List.lookup id cs).isSome :=
  isSome_lookup_updateChan cs t _ id

theorem broadcastTo_nil (cs : ChanWorld) (e : Event) : broadcastTo cs [] e = cs := rfl

theorem broadcastTo_cons (cs : ChanWorld) (j : Nat) (rest : List Nat) (e : Event) :
    broadcastTo cs (j :: rest) e = broadcastTo (enqueue cs j e) rest e := rfl

theorem closeList_nil (cs : ChanWorld) : closeList cs [] = cs := rfl

theorem closeList_cons (cs : ChanWorld) (j : Nat) (rest : List Nat) :
    closeList cs (j :: rest) = closeList (closeChan cs j) rest := rfl

theorem closeAllDisp_nil (cs : ChanWorld) : closeAllDisp cs [] = cs := rfl

theorem closeAllDisp_cons (cs : ChanWorld) (p : EventName × List Nat)
    (rest : List (EventName × List Nat)) :
    closeAllDisp cs (p :: rest) = closeAllDisp (closeList cs p.2) rest := rfl

theorem getBuf_broadcastTo_not_mem (dl : List Nat) :
    ∀ (cs : ChanWorld) (e : Event) (id : Nat), id ∉ dl →
      getBuf (broadcastTo cs dl e) id = getBuf cs id := by
  induction dl with
  | nil => intro cs e id _; rfl
  | cons j rest ih =>
    intro cs e id h
    rw [broadcastTo_cons, ih (enqueue cs j e) e id (fun hm => h (List.mem_cons_of_mem j hm)),
      getBuf_enqueue_ne]
    intro hj
    exact h (hj ▸ List.mem_cons_self j rest)

theorem getClosed_broadcastTo (dl : List Nat) :
    ∀ (cs : ChanWorld) (e : Event) (id : Nat),
      getClosed (broadcastTo cs dl e) id = getClosed cs id := by
  induction dl with
  | nil => intro cs e id; rfl
  | cons j rest ih =>
    intro cs e id
    rw [broadcastTo_cons, ih, getClosed_enqueue]

theorem getBuf_closeList (dl : List Nat) :
    ∀ (cs : ChanWorld) (id : Nat), getBuf (closeList cs dl) id = getBuf cs id := by
  induction dl with
  | nil => intro cs id; rfl
  | cons j rest ih =>
    intro cs id
    rw [closeList_cons, ih, getBuf_closeChan]

theorem isSome_lookup_closeList (dl : List Nat) :
    ∀ (cs : ChanWorld) (id : Nat),
      (List.lookup id (closeList cs dl)).isSome = (List.lookup id cs).isSome := by
  induction dl with
  | nil => intro cs id; rfl
  | cons j rest ih =>
    intro cs id
    rw [closeList_cons, ih, isSome_lookup_closeChan]

theorem getClosed_closeList_mono (dl : List Nat) :
    ∀ (cs : ChanWorld) (id : Nat), getClosed cs id ≤ getClosed (closeList cs dl) id := by
  induction dl with
  | nil => intro cs id; exact Nat.le_refl _
  | cons j rest ih =>
    intro cs id
    rw [closeList_cons]
    exact Nat.le_trans (getClosed_closeChan_mono cs j id) (ih (closeChan cs j) id)

theorem getClosed_closeList_of_mem (dl : List Nat) :
    ∀ (cs : ChanWorld) (id : Nat), id ∈ dl → (List.lookup id cs).isSome = true →
      getClosed cs id + 1 ≤ getClosed (closeList cs dl) id := by
  induction dl with
  | nil => intro cs id h _; exact absurd h (List.not_mem_nil id)
  | cons j rest ih =>
    intro cs id hmem hsome
    rw [closeList_cons]
    rcases List.mem_cons.mp hmem with hj | hr
    · subst hj
      have h1 : getClosed cs id + 1 = getClosed (closeChan cs id) id :=
        (getClosed_closeChan_self cs id hsome).symm
      rw [h1]
      exact getClosed_closeList_mono rest (closeChan cs id) id
    · have hsome2 : (List.lookup id (closeChan cs j)).isSome = true := by
        rw [isSome_lookup_closeChan]; exact hsome
      exact Nat.le_trans
        (Nat.add_le_add_right (getClosed_closeChan_mono cs j id) 1)
        (ih (closeChan cs j) id hr hsome2)

theorem isSome_lookup_closeAllDisp (m : List (EventName × List Nat)) :
    ∀ (cs : ChanWorld) (id : Nat),
      (List.lookup id (closeAllDisp cs m)).isSome = (List.lookup id cs).isSome := by
  induction m with
  | nil => intro cs id; rfl
  | cons p rest ih =>
    intro cs id
    rw [closeAllDisp_cons, ih, isSome_lookup_closeList]

theorem getClosed_closeAllDisp_mono (m : List (EventName × List Nat)) :
    ∀ (cs : ChanWorld) (id : Nat), getClosed cs id ≤ getClosed (closeAllDisp cs m) id := by
  induction m with
  | nil => intro cs id; exact Nat.le_refl _
  | cons p rest ih =>
    intro cs id
    rw [closeAllDisp_cons]
    exact Nat.le_trans (getClosed_closeList_mono p.2 cs id) (ih (closeList cs p.2) id)

theorem getClosed_closeAllDisp_of_mem (m : List (EventName × List Nat)) :
    ∀ (cs : ChanWorld) (k : EventName) (d : List Nat) (id : Nat), (k, d) ∈ m → id ∈ d →
      (List.lookup id cs).isSome = true →
      getClosed cs id + 1 ≤ getClosed (closeAllDisp cs m) id := by
  induction m with
  | nil => intro cs k d id h _ _; exact absurd h (List.not_mem_nil _)
  | cons p rest ih =>
    intro cs k d id hmem hid hsome
    rw [closeAllDisp_cons]
    rcases List.mem_cons.mp hmem with hp | hr
    · have hd : p.2 = d := by rw [← hp]
      exact Nat.le_trans
        (by rw [hd] at *; exact getClosed_closeList_of_mem d cs id hid hsome)
        (getClosed_closeAllDisp_mono rest (closeList cs p.2) id)
    · have hsome2 : (List.lookup id (closeList cs p.2)).isSome = true := by
        rw [isSome_lookup_closeList]; exact hsome
      exact Nat.le_trans
        (Nat.add_le_add_right (getClosed_closeList_mono p.2 cs id) 1)
        (ih (closeList cs p.2) k d id hr hid hsome2)

theorem allows_eq_deliverSpec (s : PluginSettings) (n : ServerName) (r : RoomName) :
    s.allows n r = deliverSpec s n r := by
  simp only [PluginSettings.allows, PluginSettings.IsForcedServer, PluginSettings.IsForcedRoom,
    PluginSettings.IsBannedServer, PluginSettings.IsBannedRoom, deliverSpec]
  simp [Bool.or_comm, Bool.or_assoc, Bool.or_left_comm]

theorem policyFilter_eq (s : PluginSettings) (evs : List Event) :
    s.GetEventHandler evs = evs.filter (fun e => s.allows e.server e.room) := by
  induction evs with
  | nil => rfl
  | cons e rest ih =>
    rw [PluginSettings.GetEventHandler]
    cases h : s.allows e.server e.room <;> simp [h, ih, List.filter_cons]

theorem allows_empty (n : ServerName) (r : RoomName) :
    NewPluginSettings.allows n r = true := by
  simp [PluginSettings.allows, NewPluginSettings, PluginSettings.IsForcedServer,
    PluginSettings.IsForcedRoom, PluginSettings.IsBannedServer, PluginSettings.IsBannedRoom,
    PluginSettings.isForcedRoom, PluginSettings.isBannedRoom, List.lookup]

/-- C1: for every policy configuration and every event stream, the
policy-filtered subscription produced by PluginSettings.GetEventHandler
forwards exactly the events allowed by the specification's delivery
predicate, forced(network) OR forced(network,room) OR NOT (banned(network)
OR banned(network,room)) with the four wildcard combinations per room-axis
check; and with ban-all-rooms(N1) and force-room(N1,R1) both set, an event
on (N1,R1) is delivered while an event on (N1,R2) is not. -/
theorem policy_filter_matches_spec (s : PluginSettings) (evs : List Event) :
    s.GetEventHandler evs = evs.filter (fun e => deliverSpec s e.server e.room)
    ∧ precedenceSettings.GetEventHandler
        [⟨"N1", "R1", "a"⟩, ⟨"N1", "R2", "b"⟩] = [⟨"N1", "R1", "a"⟩] := by
  constructor
  · rw [policyFilter_eq]
    simp only [allows_eq_deliverSpec]
  · decide

/-- C9: a freshly constructed PluginSettings, with all four rule sets
empty, is the identity policy: the policy-filtered subscription forwards
every event of the raw subscription unchanged and in order. -/
theorem newPluginSettings_identity (evs : List Event) :
    NewPluginSettings.GetEventHandler evs = evs := by
  rw [policyFilter_eq]
  simp [allows_empty]

/-- C7: FilterRoom yields exactly the subsequence of events whose server
and room match the given pair, preserving relative order, with no event
duplicated, dropped or modified: it equals List.filter of the matching
predicate and is a sublist of its input. -/
theorem filterRoom_exact_subsequence (evs : List Event) (server : ServerName)
    (room : RoomName) :
    FilterRoom evs server room
        = evs.filter (fun e => e.server == server && e.room == room)
    ∧ List.Sublist (FilterRoom evs server room) evs := by
  have hf : ∀ l : List Event,
      FilterRoom l server room = l.filter (fun e => e.server == server && e.room == room) := by
    intro l
    induction l with
    | nil => rfl
    | cons e rest ih =>
      rw [FilterRoom]
      cases h : (e.server == server && e.room == room) <;> simp [h, ih, List.filter_cons]
  refine ⟨hf evs, ?_⟩
  rw [hf evs]
  exact List.filter_sublist evs

theorem DispSt.run_nil (d : DispSt) : d.run [] = d := rfl

theorem DispSt.run_cons (d : DispSt) (op : DOp) (ops : List DOp) :
    d.run (op :: ops) = (d.step op).run ops := rfl

theorem step_preserves_removed (d : DispSt) (op : DOp) (id : Nat)
    (h1 : id < d.next) (h2 : id ∉ d.channels) :
    id < (d.step op).next ∧ id ∉ (d.step op).channels ∧
      getBuf (d.step op).chans id = getBuf d.chans id := by
  cases op with
  | subscribe =>
    have hne : ¬ (id = d.next) := Nat.ne_of_lt h1
    refine ⟨Nat.lt_succ_of_lt h1, ?_, ?_⟩
    · intro hm
      rcases List.mem_cons.mp hm with h | h
      · exact hne h
      · exact h2 h
    · simp [DispSt.step, DispSt.getEventHandler, getBuf_def, lookup_cons_pair, hne]
  | unsubscribe j =>
    refine ⟨h1, ?_, ?_⟩
    · intro hm
      exact h2 (List.mem_of_mem_filter hm)
    · exact getBuf_closeChan d.chans j id
  | broadcast e =>
    exact ⟨h1, h2, getBuf_broadcastTo_not_mem d.channels d.chans e id h2⟩

theorem run_preserves_removed (ops : List DOp) :
    ∀ (d : DispSt) (id : Nat), id < d.next → id ∉ d.channels →
      id ∉ (d.run ops).channels ∧ getBuf (d.run ops).chans id = getBuf d.chans id := by
  induction ops with
  | nil => intro d id _ h2; exact ⟨h2, rfl⟩
  | cons op rest ih =>
    intro d id h1 h2
    obtain ⟨g1, g2, g3⟩ := step_preserves_removed d op id h1 h2
    obtain ⟨r1, r2⟩ := ih (d.step op) id g1 g2
    rw [DispSt.run_cons]
    exact ⟨r1, r2.trans g3⟩

/-- C2: once EventDispatcher.RemoveEventHandler of a subscription channel
returns, the channel is closed and out of the subscriber set, and no
subsequent sequence of public dispatcher operations (in particular no
Broadcast) enqueues anything into it: its queue stays exactly as it was,
and it never re-enters the subscriber set. -/
theorem no_enqueue_after_removeEventHandler (d : DispSt) (id : Nat) (ops : List DOp)
    (h1 : id < d.next) (h2 : (List.lookup id d.chans).isSome = true) :
    id ∉ (d.removeEventHandler id).channels
    ∧ getClosed (d.removeEventHandler id).chans id = getClosed d.chans id + 1
    ∧ id ∉ ((d.removeEventHandler id).run ops).channels
    ∧ getBuf ((d.removeEventHandler id).run ops).chans id
        = getBuf (d.removeEventHandler id).chans id := by
  have hni : id ∉ (d.removeEventHandler id).channels := by
    simp [DispSt.removeEventHandler, List.mem_filter]
  have hnext : id < (d.removeEventHandler id).next := h1
  obtain ⟨r1, r2⟩ := run_preserves_removed ops (d.removeEventHandler id) id hnext hni
  refine ⟨hni, ?_, r1, r2⟩
  simpa [DispSt.removeEventHandler] using getClosed_closeChan_self d.chans id h2

/-- Concrete run of C2: the single subscription of dispEx is removed and a
later broadcast does not reach it. -/
theorem no_enqueue_after_removeEventHandler_witness :
    (0 < dispEx.next ∧ (List.lookup 0 dispEx.chans).isSome = true)
    ∧ (0 ∉ (dispEx.removeEventHandler 0).channels
       ∧ getClosed (dispEx.removeEventHandler 0).chans 0 = getClosed dispEx.chans 0 + 1
       ∧ 0 ∉ ((dispEx.removeEventHandler 0).run [DOp.broadcast evX]).channels
       ∧ getBuf ((dispEx.removeEventHandler 0).run [DOp.broadcast evX]).chans 0
           = getBuf (dispEx.removeEventHandler 0).chans 0) :=
  ⟨⟨by decide, by decide⟩,
    no_enqueue_after_removeEventHandler dispEx 0 [DOp.broadcast evX] (by decide) (by decide)⟩

/-- C3: evaluation of the code at the failing input.  On a bot with two
dispatchers (JOIN holding channel 0 and PART holding channel 1),
Bot.RemoveEventHandler of channel 0 executes close() on channel 0 once per
dispatcher: the close count of channel 0 goes from 0 to 2, a double-close,
which in Go is a runtime panic.  The single-legitimate-closer discipline
the claim states is therefore not enforced by the code. -/
theorem botRemove_double_closes_with_two_dispatchers :
    getClosed botTwoDisp.chans 0 = 0
    ∧ getClosed (botTwoDisp.removeEventHandler 0).chans 0 = 2 := by decide

/-- C10: when the events map is nil or has no dispatcher for the event
name, Bot.BroadcastEvent is a no-op: it returns with the whole bot state
unchanged and delivers to no subscriber. -/
theorem broadcastEvent_missing_dispatcher_noop (b : BotSt) (name : EventName) (ev : Event)
    (h : (b.events.getD []).lookup name = none) :
    b.BroadcastEvent name ev = b := by
  cases he : b.events with
  | none => simp [BotSt.BroadcastEvent, he]
  | some m =>
    rw [he] at h
    simp only [Option.getD_some] at h
    simp [BotSt.BroadcastEvent, he, h]

/-- Concrete run of C10 on the empty bot, whose events map is nil. -/
theorem broadcastEvent_missing_dispatcher_noop_witness :
    ((BotSt.empty.events.getD []).lookup "JOIN" = none)
    ∧ BotSt.empty.BroadcastEvent "JOIN" evX = BotSt.empty :=
  ⟨by decide, broadcastEvent_missing_dispatcher_noop BotSt.empty "JOIN" evX (by decide)⟩

/-- C5: whenever a first Bot.AddServer of a fresh name returns a record
and a state, a second AddServer with the same name returns the very same
record and the very same state with a nil error: the second call takes the
early return, opens no second protocol connection, and the connect log
still holds exactly the one entry the first call appended. -/
theorem addServer_idempotent (b : BotSt) (s t : Srv) (e1 e2 : Option String)
    (r1 : Srv) (b1 : BotSt) (err1 : Option String)
    (hname : t.name = s.name) (h : List.lookup s.name b.servers = none)
    (hrun : b.AddServer s e1 = some (r1, b1, err1)) :
    b1.AddServer t e2 = some (r1, b1, none)
    ∧ b1.connects = b.connects ++ [s.name] := by
  simp only [BotSt.AddServer, h] at hrun
  rcases hev : b.events.getD [] with _ | ⟨p, rest⟩
  · rw [hev] at hrun
    simp only [Option.some.injEq, Prod.mk.injEq] at hrun
    obtain ⟨hr, hb, _⟩ := hrun
    subst hr
    subst hb
    have hl : List.lookup t.name (b.servers ++ [(s.name, s)]) = some s := by
      rw [hname, lookup_append_of_none h, lookup_cons_pair]
      simp
    constructor
    · simp [BotSt.AddServer, hl]
    · rfl
  · rw [hev] at hrun
    simp at hrun

/-- Concrete run of C5: adding N1 twice to the empty bot. -/
theorem addServer_idempotent_witness :
    (srvN1.name = srvN1.name ∧ List.lookup srvN1.name BotSt.empty.servers = none
     ∧ BotSt.empty.AddServer srvN1 none = some (srvN1, botOneSrv, none))
    ∧ (botOneSrv.AddServer srvN1 none = some (srvN1, botOneSrv, none)
       ∧ botOneSrv.connects = BotSt.empty.connects ++ [srvN1.name]) :=
  ⟨⟨rfl, by decide, by decide⟩,
    addServer_idempotent BotSt.empty srvN1 srvN1 none none srvN1 botOneSrv none
      rfl (by decide) (by decide)⟩

/-- C6 counterexample: AddServer of N1 on the empty bot (no dispatcher, so
the wiring loop runs zero times and the connect really is attempted) with
a failing connection returns the error, yet leaves the server entry
registered — the registry is not left as if the network had never been
added. -/
theorem addServer_failure_keeps_registration_cex :
    BotSt.empty.AddServer srvN1 (some "unreachable")
      = some (srvN1, botOneSrv, some "unreachable")
    ∧ List.lookup "N1" botOneSrv.servers = some srvN1 := by
  constructor
  · rfl
  · decide

/-- C6 amended: when Bot.AddServer reaches the connect attempt (which
requires that no dispatcher exists yet — otherwise the call panics in the
wiring loop on the nil connection before connecting) and the connection
fails, the error is returned to the caller but the server entry is not
rolled back: it remains registered, with the connect attempt logged; no
callback exists for it, and the network is absent from delivery only
because the failed connection produces no events. -/
theorem addServer_failure_returns_error_keeps_state (b : BotSt) (s : Srv) (msg : String)
    (h : List.lookup s.name b.servers = none) (hev : b.events.getD [] = []) :
    b.AddServer s (some msg)
      = some (s, { b with
          servers := b.servers ++ [(s.name, s)]
          connects := b.connects ++ [s.name] }, some msg)
    ∧ List.lookup s.name (b.servers ++ [(s.name, s)]) = some s := by
  constructor
  · simp [BotSt.AddServer, h, hev]
  · rw [lookup_append_of_none h, lookup_cons_pair]
    simp

/-- Concrete run of the amended C6 on the empty bot. -/
theorem addServer_failure_returns_error_keeps_state_witness :
    (List.lookup srvN1.name BotSt.empty.servers = none
     ∧ BotSt.empty.events.getD [] = [])
    ∧ (BotSt.empty.AddServer srvN1 (some "unreachable")
        = some (srvN1, { BotSt.empty with
            servers := BotSt.empty.servers ++ [(srvN1.name, srvN1)]
            connects := BotSt.empty.connects ++ [srvN1.name] }, some "unreachable")
       ∧ List.lookup srvN1.name (BotSt.empty.servers ++ [(srvN1.name, srvN1)]) = some srvN1) :=
  ⟨⟨by decide, rfl⟩,
    addServer_failure_returns_error_keeps_state BotSt.empty srvN1 "unreachable"
      (by decide) rfl⟩

/-- C8 counterexample: after Bot.Disconnect on a bot with one JOIN
dispatcher holding channel 0, that dispatcher's subscriber set still holds
channel 0 (closed, but not removed): the subscriber sets are not empty
after shutdown. -/
theorem disconnect_subscriber_set_nonempty_cex :
    ((botOneDisp.Disconnect).1.events.getD []).lookup "JOIN" = some [0]
    ∧ getClosed (botOneDisp.Disconnect).1.chans 0 = 1 := by decide

/-- C8 amended: after Bot.Disconnect returns, every protocol callback has
been unregistered, every channel in every dispatcher's subscriber set has
been closed, and the steps happened in order (unregister callbacks, close
dispatchers, quit each server, wait the grace interval) — but the
subscriber sets themselves are left in place, not emptied. -/
theorem disconnect_closes_channels_in_order (b : BotSt) (k : EventName)
    (d : List Nat) (id : Nat)
    (h1 : (b.events.getD []).lookup k = some d) (h2 : id ∈ d)
    (h3 : (List.lookup id b.chans).isSome = true) :
    (b.Disconnect).1.wired = []
    ∧ (b.Disconnect).1.events = b.events
    ∧ getClosed b.chans id + 1 ≤ getClosed (b.Disconnect).1.chans id
    ∧ (b.Disconnect).2
        = [DAction.unregisterCallbacks, DAction.closeDispatchers]
            ++ b.servers.map (fun p => DAction.quit p.1) ++ [DAction.waitGrace] := by
  refine ⟨rfl, rfl, ?_, rfl⟩
  have hm : (k, d) ∈ b.events.getD [] := mem_of_lookup_eq_some h1
  exact getClosed_closeAllDisp_of_mem _ b.chans k d id hm h2 h3

/-- Concrete run of the amended C8 on botOneDisp. -/
theorem disconnect_closes_channels_in_order_witness :
    ((botOneDisp.events.getD []).lookup "JOIN" = some [0]
     ∧ 0 ∈ ([0] : List Nat)
     ∧ (List.lookup 0 botOneDisp.chans).isSome = true)
    ∧ ((botOneDisp.Disconnect).1.wired = []
       ∧ (botOneDisp.Disconnect).1.events = botOneDisp.events
       ∧ getClosed botOneDisp.chans 0 + 1 ≤ getClosed (botOneDisp.Disconnect).1.chans 0
       ∧ (botOneDisp.Disconnect).2
           = [DAction.unregisterCallbacks, DAction.closeDispatchers]
               ++ botOneDisp.servers.map (fun p => DAction.quit p.1) ++ [DAction.waitGrace]) :=
  ⟨⟨by decide, by decide, by decide⟩,
    disconnect_closes_channels_in_order botOneDisp "JOIN" [0] 0 (by decide) (by decide) (by decide)⟩

theorem isSome_lookup_broadcastTo (dl : List Nat) :
    ∀ (cs : ChanWorld) (e : Event) (id : Nat),
      (List.lookup id (broadcastTo cs dl e)).isSome = (List.lookup id cs).isSome := by
  induction dl with
  | nil => intro cs e id; rfl
  | cons j rest ih =>
    intro cs e id
    rw [broadcastTo_cons, ih, isSome_lookup_enqueue]

theorem lookup_setDisp_self (m : List (EventName × List Nat)) (k : EventName)
    (d : List Nat) : List.lookup k (setDisp m k d) = some d := by
  induction m with
  | nil => simp [setDisp, lookup_cons_pair]
  | cons p rest ih =>
    rcases p with ⟨k0, v⟩
    rw [setDisp]
    by_cases h : k0 = k
    · subst h
      simp [lookup_cons_pair]
    · have h2 : ¬ (k = k0) := fun hh => h hh.symm
      rw [if_neg (by simp [h]), lookup_cons_pair, if_neg (by simp [h2])]
      exact ih

theorem deliverRaw_events (k : EventName) (ev : Event) (b0 : BotSt) :
    (deliverRaw k ev b0).events = b0.events := by
  rcases b0 with ⟨sv, evs, w, cs, n, co⟩
  cases evs with
  | none => rfl
  | some m =>
    simp only [deliverRaw]
    rcases List.lookup k m with _ | d <;> rfl

theorem deliverRaw_isSome (k : EventName) (ev : Event) (b0 : BotSt) (id : Nat) :
    (List.lookup id (deliverRaw k ev b0).chans).isSome
      = (List.lookup id b0.chans).isSome := by
  rcases b0 with ⟨sv, evs, w, cs, n, co⟩
  cases evs with
  | none => rfl
  | some m =>
    simp only [deliverRaw]
    rcases List.lookup k m with _ | d
    · rfl
    · exact isSome_lookup_broadcastTo d cs ev id

theorem deliverRaw_buf_self (k : EventName) (ev : Event) (b0 : BotSt) (ch : Nat)
    (h1 : (b0.events.getD []).lookup k = some [ch])
    (h2 : (List.lookup ch b0.chans).isSome = true) :
    getBuf (deliverRaw k ev b0).chans ch = getBuf b0.chans ch ++ [ev] := by
  rcases b0 with ⟨sv, evs, w, cs, n, co⟩
  cases evs with
  | none => simp [List.lookup] at h1
  | some m =>
    simp only [Option.getD_some] at h1
    simp only [deliverRaw, h1]
    rw [broadcastTo_cons, broadcastTo_nil]
    exact getBuf_enqueue_self cs ch ev h2

theorem foldDeliver_buf (k : EventName) (ev : Event) (ch : Nat)
    (ms : List (ServerName × EventName)) :
    ∀ (b0 : BotSt), (b0.events.getD []).lookup k = some [ch] →
      (List.lookup ch b0.chans).isSome = true →
      getBuf (ms.foldl (fun b1 _ => deliverRaw k ev b1) b0).chans ch
        = getBuf b0.chans ch ++ List.replicate ms.length ev := by
  induction ms with
  | nil => intro b0 _ _; simp
  | cons p rest ih =>
    intro b0 h1 h2
    have he : ((deliverRaw k ev b0).events.getD []).lookup k = some [ch] := by
      rw [deliverRaw_events]; exact h1
    have hs : (List.lookup ch (deliverRaw k ev b0).chans).isSome = true := by
      rw [deliverRaw_isSome]; exact h2
    rw [List.foldl_cons, ih (deliverRaw k ev b0) he hs, deliverRaw_buf_self k ev b0 ch h1 h2]
    simp [List.replicate_succ]

theorem getEventHandler_none (b : BotSt) (k : EventName)
    (h : (b.events.getD []).lookup k = none) :
    b.getEventHandler k = (b.next,
      { b with
        events := some (setDisp (b.events.getD []) k [b.next])
        wired := b.wired ++ b.servers.map (fun p => (p.1, k))
        chans := (b.next, ⟨[], 0⟩) :: b.chans
        next := b.next + 1 }) := by
  simp [BotSt.getEventHandler, h]

/-- C4: the GetEventHandler direction of retroactive wiring holds: when
the first subscription for event kind k is requested on a bot, a broadcast
callback for k is wired for every already-added server, so a later k event
arriving on such a server is delivered into the new subscription's queue.
The symmetric AddServer direction the claim also states does not exist in
the code: evaluated at the failing input (adding the fresh server N2 to a
bot that already has a JOIN dispatcher), AddServer panics in the wiring
loop — the makeEvents calls run before server.Conn is assigned, so they
dereference a nil connection and register nothing. -/
theorem retroactive_wiring (b : BotSt) (srv : ServerName) (k : EventName)
    (room : RoomName) (l : RawLine) (sv : Srv) :
    (List.lookup srv b.servers = some sv → (b.events.getD []).lookup k = none →
      (srv, k) ∈ (b.getEventHandler k).2.wired
      ∧ Event.mk srv room l
          ∈ getBuf ((b.getEventHandler k).2.arrive srv k room l).chans
              (b.getEventHandler k).1)
    ∧ botOneDisp.AddServer srvN2 none = none := by
  constructor
  · intro hsv hk
    rw [getEventHandler_none b k hk]
    have hmem : (srv, k) ∈ b.wired ++ b.servers.map (fun p => (p.1, k)) := by
      refine List.mem_append_right _ ?_
      exact List.mem_map_of_mem (fun p => (p.1, k)) (mem_of_lookup_eq_some hsv)
    refine ⟨hmem, ?_⟩
    rw [BotSt.arrive]
    have h1 : ((some (setDisp (b.events.getD []) k [b.next])).getD []).lookup k
        = some [b.next] := by
      rw [Option.getD_some]
      exact lookup_setDisp_self _ k _
    have h2 : (List.lookup b.next ((b.next, (⟨[], 0⟩ : ChanSt)) :: b.chans)).isSome = true := by
      rw [lookup_cons_pair]
      simp
    rw [foldDeliver_buf k (Event.mk srv room l) b.next _ _ h1 h2]
    have hbuf : getBuf ((b.next, (⟨[], 0⟩ : ChanSt)) :: b.chans) b.next = [] := by
      rw [getBuf_def, lookup_cons_pair]
      simp
    rw [hbuf, List.nil_append]
    have hfmem : (srv, k) ∈ (b.wired ++ b.servers.map (fun p => (p.1, k))).filter
        (fun p => p.1 == srv && p.2 == k) := by
      refine List.mem_filter.mpr ⟨hmem, ?_⟩
      simp
    refine List.mem_replicate.mpr ⟨?_, rfl⟩
    exact Nat.pos_iff_ne_zero.mp (List.length_pos_of_mem hfmem)
  · rfl

/-- Concrete run of C4: the N1 bot gains a JOIN wire and a JOIN line on
N1 reaches the fresh subscription. -/
theorem retroactive_wiring_witness :
    ((List.lookup "N1" botOneSrv.servers = some srvN1
      ∧ (botOneSrv.events.getD []).lookup "JOIN" = none)
     ∧ (("N1", "JOIN") ∈ (botOneSrv.getEventHandler "JOIN").2.wired
        ∧ Event.mk "N1" "R1" "x"
            ∈ getBuf ((botOneSrv.getEventHandler "JOIN").2.arrive "N1" "JOIN" "R1" "x").chans
                (botOneSrv.getEventHandler "JOIN").1)) :=
  ⟨⟨by decide, by decide⟩,
   (retroactive_wiring botOneSrv "N1" "JOIN" "R1" "x" srvN1).1
      (by decide) (by decide)⟩

end Septapus
